import Mathlib

/-!
Verification development for the kro LSP validation engine.

The Go sources under tools/lsp/server are shallowly embedded: pure string
manipulation from the Go standard library is re-implemented over character
lists (Lean core String primitives do not reduce in the kernel), stateful
components (document store, CRD cache) are modelled as explicit state
values, and the external YAML/network layers are abstracted as function
parameters where the code under test only consumes their results.
-/

/-! ## Go string primitives

Character-list implementations of the `strings`/`strconv` operations used
by the validator.  Go strings are byte slices; the embedded documents and
identifiers are ASCII, where these implementations agree with Go.
-/

namespace GoStr

/-- Whitespace recognized by Go `unicode.IsSpace` (ASCII subset). -/
def isSpaceChar (c : Char) : Bool :=
  c = ' ' || c = '\t' || c = '\n' || c = '\r' ||
  c = Char.ofNat 11 || c = Char.ofNat 12

/-- `strings.TrimSpace` on a character list. -/
def trimL (l : List Char) : List Char :=
  ((l.dropWhile isSpaceChar).reverse.dropWhile isSpaceChar).reverse

/-- `strings.TrimSpace`. -/
def goTrimSpace (s : String) : String :=
  String.mk (trimL s.toList)

/-- `strings.HasPrefix`. -/
def goHasPrefix (s pre : String) : Bool :=
  pre.toList.isPrefixOf s.toList

/-- `strings.HasSuffix`. -/
def goHasSuffix (s suf : String) : Bool :=
  suf.toList.reverse.isPrefixOf s.toList.reverse

/-- `strings.TrimPrefix` (drops one copy of the prefix when present). -/
def goTrimPrefix (s pre : String) : String :=
  if goHasPrefix s pre then String.mk (s.toList.drop pre.toList.length) else s

/-- `strings.TrimSuffix` (drops one copy of the suffix when present). -/
def goTrimSuffix (s suf : String) : String :=
  if goHasSuffix s suf then
    String.mk ((s.toList.reverse.drop suf.toList.length).reverse)
  else s

/-- Does `sub` occur inside `l`?  (`strings.Contains` on character lists.) -/
def containsL (sub : List Char) : List Char → Bool
  | [] => sub.isPrefixOf []
  | c :: rest => sub.isPrefixOf (c :: rest) || containsL sub rest

/-- `strings.Contains`. -/
def goContains (s sub : String) : Bool :=
  containsL sub.toList s.toList

/-- Length of a string, via its character list. -/
def goLen (s : String) : Nat :=
  s.toList.length

/-- Splitting loop of `strings.Split`.  The fuel argument bounds the number
of processed characters; callers pass `s.length + 1`, which always
suffices because every step consumes at least one character. -/
def splitFuel (sep : List Char) : Nat → List Char → List Char → List (List Char)
  | 0, s, acc => [acc.reverse ++ s]
  | _ + 1, [], acc => [acc.reverse]
  | fuel + 1, c :: rest, acc =>
    if sep ≠ [] ∧ sep.isPrefixOf (c :: rest) then
      acc.reverse :: splitFuel sep fuel ((c :: rest).drop sep.length) []
    else
      splitFuel sep fuel rest (c :: acc)

/-- `strings.Split` for a non-empty separator (the validator never splits
on the empty string). -/
def goSplit (s sep : String) : List String :=
  (splitFuel sep.toList (s.toList.length + 1) s.toList []).map String.mk

/-- First-occurrence split: `strings.SplitN(s, sep, 2)` returns the parts
before and after the first occurrence of `sep`, or nothing when `sep` does
not occur. -/
def splitFirstL (sep : List Char) : List Char → Option (List Char × List Char)
  | [] => if sep.isPrefixOf [] then some ([], []) else none
  | c :: rest =>
    if sep.isPrefixOf (c :: rest) then
      some ([], (c :: rest).drop sep.length)
    else
      (splitFirstL sep rest).map (fun p => (c :: p.1, p.2))

/-- `strings.SplitN(s, sep, 2)`. -/
def goSplitN2 (s sep : String) : List String :=
  match splitFirstL sep.toList s.toList with
  | some (a, b) => [String.mk a, String.mk b]
  | none => [s]

/-- ASCII lower-casing of one character (agrees with Go `unicode.ToLower`
on ASCII). -/
def lowerChar (c : Char) : Char :=
  Char.toLower c

/-- `strings.EqualFold` (ASCII fragment: case-insensitive equality). -/
def goEqualFold (s t : String) : Bool :=
  s.toList.map lowerChar == t.toList.map lowerChar

/-- ASCII digit test. -/
def isDigitChar (c : Char) : Bool :=
  '0' ≤ c && c ≤ '9'

/-- ASCII letter/digit test. -/
def isAlnumChar (c : Char) : Bool :=
  ('a' ≤ c && c ≤ 'z') || ('A' ≤ c && c ≤ 'Z') || isDigitChar c

/-- Numeric value of a digit list. -/
def digitsVal : List Char → Nat → Nat
  | [], acc => acc
  | c :: rest, acc => digitsVal rest (acc * 10 + (c.toNat - '0'.toNat))

/-- Does `strconv.Atoi` accept the string?  Optional sign, one or more
digits, and the value must fit in a 64-bit int. -/
def goAtoiOk (s : String) : Bool :=
  match s.toList with
  | [] => false
  | c :: rest =>
    let neg := c = '-'
    let ds := if c = '-' || c = '+' then rest else c :: rest
    ds ≠ [] && ds.all isDigitChar &&
      (if neg then digitsVal ds 0 ≤ 2 ^ 63 else digitsVal ds 0 ≤ 2 ^ 63 - 1)

/-- Exponent part acceptor: `[eE][+-]?digits`. -/
def floatExpOk : List Char → Bool
  | [] => true
  | e :: rest =>
    (e = 'e' || e = 'E') &&
      (match rest with
       | [] => false
       | c :: rest2 =>
         let ds := if c = '+' || c = '-' then rest2 else c :: rest2
         ds ≠ [] && ds.all isDigitChar)

/-- Mantissa-and-exponent acceptor for a decimal float:
`digits [. digits] [exp]` or `. digits [exp]` or `digits . [exp]`. -/
def floatMantissaOk (l : List Char) : Bool :=
  let intPart := l.takeWhile isDigitChar
  let rest := l.dropWhile isDigitChar
  match rest with
  | [] => intPart ≠ []
  | '.' :: afterDot =>
    let fracPart := afterDot.takeWhile isDigitChar
    let rest2 := afterDot.dropWhile isDigitChar
    (intPart ≠ [] || fracPart ≠ []) && floatExpOk rest2
  | _ => intPart ≠ [] && floatExpOk rest

/-- Does `strconv.ParseFloat(s, 64)` accept the string?  Modelled for the
decimal, infinity and NaN forms; hexadecimal float literals and digit
underscores do not occur in field-definition modifiers. -/
def goParseFloatOk (s : String) : Bool :=
  match s.toList with
  | [] => false
  | c :: rest =>
    let body := if c = '+' || c = '-' then rest else c :: rest
    let lowered := String.mk (body.map lowerChar)
    lowered = "inf" || lowered = "infinity" || lowered = "nan" ||
      floatMantissaOk body

end GoStr

/-! ## Position model

`tools/lsp/server/parser/position.go` (1-based `Line`, 0-based `Column`)
and the protocol-convention variant (0-based `Line`/`Character`) with its
free function `IsPositionInRange`.
-/

namespace ParserPos

/-- Position with 1-based line and 0-based column. -/
structure Position where
  Line : Int
  Column : Int
deriving DecidableEq

/-- Range with inclusive `Start` and (per the source comment) exclusive
`End`. -/
structure Range where
  Start : Position
  End : Position
deriving DecidableEq

/-- `Range.Contains` as implemented: note that on the `End` line only
columns strictly greater than `End.Column` are rejected. -/
def Range.Contains (r : Range) (pos : Position) : Bool :=
  if pos.Line < r.Start.Line || pos.Line > r.End.Line then false
  else if pos.Line = r.Start.Line && pos.Column < r.Start.Column then false
  else if pos.Line = r.End.Line && pos.Column > r.End.Column then false
  else true

/-- `Position.IsValid`. -/
def Position.IsValid (p : Position) : Bool :=
  p.Line > 0 && p.Column ≥ 0

end ParserPos

namespace LspPos

/-- Position with 0-based line and character. -/
structure Position where
  Line : Int
  Character : Int
deriving DecidableEq

/-- Range over protocol-convention positions. -/
structure Range where
  Start : Position
  End : Position
deriving DecidableEq

/-- `IsPositionInRange` as implemented: positions past `End` are rejected
only when strictly greater. -/
def IsPositionInRange (pos : Position) (r : Range) : Bool :=
  if pos.Line < r.Start.Line ||
      (pos.Line = r.Start.Line && pos.Character < r.Start.Character) then
    false
  else if pos.Line > r.End.Line ||
      (pos.Line = r.End.Line && pos.Character > r.End.Character) then
    false
  else true

end LspPos

/-! ## YAML parser / document model

`tools/lsp/server/parser/yaml.go`.  The goccy AST is embedded as
`YamlAst` with mapping keys already extracted as strings (the Go code
reads them through `ast.StringNode`); anchor/alias/literal nodes, which
only copy another node's value, are not modelled.  `Node.Parent` is a
non-owning back reference used only by `GetPath` and is omitted.
-/

namespace YamlDoc

/-- Embedded goccy AST node. -/
inductive YamlAst where
  | mapping (values : List (String × YamlAst))
  | sequence (values : List YamlAst)
  | str (s : String)
  | int (n : Int)
  | bool (b : Bool)
  | null

/-- The `Value any` payload of a model node. -/
inductive NodeValue where
  | map (m : List (String × NodeValue))
  | arr (l : List NodeValue)
  | str (s : String)
  | int (n : Int)
  | bool (b : Bool)
  | null

/-- A model node: its interpreted value and its named children (sequence
children are keyed `[i]`). -/
structure Node where
  Value : NodeValue
  Children : List (String × Node)

mutual

/-- `processNode` on one AST node. -/
def processNode : YamlAst → Node
  | .mapping vs =>
    let children := processPairs vs
    { Value := .map (children.map (fun kv => (kv.1, kv.2.Value))),
      Children := children }
  | .sequence vs =>
    let children := processSeq 0 vs
    { Value := .arr (children.map (fun kv => kv.2.Value)),
      Children := children }
  | .str s => { Value := .str s, Children := [] }
  | .int n => { Value := .int n, Children := [] }
  | .bool b => { Value := .bool b, Children := [] }
  | .null => { Value := .null, Children := [] }

/-- Mapping children; pairs whose extracted key is empty are skipped
(mirrors the `keyNode != ""` guard). -/
def processPairs : List (String × YamlAst) → List (String × Node)
  | [] => []
  | (k, v) :: rest =>
    if k ≠ "" then (k, processNode v) :: processPairs rest
    else processPairs rest

/-- Sequence children, keyed by index. -/
def processSeq (i : Nat) : List YamlAst → List (String × Node)
  | [] => []
  | v :: rest => ("[" ++ toString i ++ "]", processNode v) :: processSeq (i + 1) rest

end

/-- The document model: `RootMap` is a Go map from top-level keys to
nodes, `RootNode` the tree of the most recently processed document. -/
structure DocumentModel where
  RootMap : String → Option Node
  RootNode : Option Node

/-- Top-level pairs contributed to `RootMap` by one document body:
the key/value pairs of a root mapping, nothing otherwise. -/
def topPairs : YamlAst → List (String × YamlAst)
  | .mapping vs => vs
  | _ => []

/-- One iteration of the `Parse` document loop. -/
def parseStep (model : DocumentModel) (body : Option YamlAst) : DocumentModel :=
  match body with
  | none => model
  | some b =>
    let withRoot : DocumentModel :=
      { model with RootNode := some (processNode b) }
    { withRoot with
      RootMap :=
        (topPairs b).foldl
          (fun rm kv =>
            fun k => if k = kv.1 then some (processNode kv.2) else rm k)
          withRoot.RootMap }

/-- `YAMLParser.Parse`, given the list of parsed document bodies (a `none`
body is a document the goccy parser produced with `Body == nil`). -/
def Parse (docs : List (Option YamlAst)) : DocumentModel :=
  docs.foldl parseStep { RootMap := fun _ => none, RootNode := none }

/-- `IsCELExpression`: a node whose string value contains both `${` and
`}`. -/
def IsCELExpression (node : Node) : Bool :=
  match node.Value with
  | .str s => GoStr.goContains s "$\x7b" && GoStr.goContains s "\x7d"
  | _ => false

end YamlDoc

/-! ## Interface values

Go `interface{}` values produced by `yaml.Unmarshal`, as consumed by the
validators through type assertions.  Floating-point scalars are not
modelled separately: the validators only distinguish strings, maps and
slices, and a float behaves like the other opaque constructors.
-/

/-- An unmarshalled Go value. -/
inductive GoVal where
  | str (s : String)
  | int (n : Int)
  | bool (b : Bool)
  | null
  | map (m : List (String × GoVal))
  | arr (l : List GoVal)

/-- A `map[string]interface{}` (Go maps have unique keys; the association
list is the map's contents). -/
abbrev GoMap := List (String × GoVal)

/-- Go map read `m[k]`. -/
def lookupGo (m : GoMap) (k : String) : Option GoVal :=
  (m.find? (fun kv => kv.1 == k)).map (fun kv => kv.2)

/-- The `v.(string)` type assertion on a looked-up value. -/
def asStr : Option GoVal → Option String
  | some (.str s) => some s
  | _ => none

/-- The `v.(map[string]interface{})` type assertion. -/
def asMap : Option GoVal → Option GoMap
  | some (.map m) => some m
  | _ => none

/-- The `v.([]interface{})` type assertion. -/
def asArr : Option GoVal → Option (List GoVal)
  | some (.arr l) => some l
  | _ => none

/-! ## Document store and manager

`src/unnamed/part_008` (`DocumentStore`) and
`tools/lsp/server/document/manager.go` (`Manager`).  The store and the
model store are Go maps guarded by mutexes; they are modelled as explicit
map values, with each operation returning the updated state.
-/

namespace DocumentPkg

/-- Document classification. -/
inductive DocumentType where
  | unknown
  | yaml
  | rgd
deriving DecidableEq

/-- A stored text document. -/
structure Document where
  URI : String
  Version : Int
  Content : String
deriving DecidableEq

/-- The per-URI document table. -/
structure DocumentStore where
  documents : String → Option Document

/-- `DocumentStore.Open`: stores a new document (or replaces an existing
one) under the uri. -/
def DocumentStore.Open (ds : DocumentStore) (uri : String) (version : Int)
    (content : String) : DocumentStore :=
  { documents := fun u =>
      if u = uri then some { URI := uri, Version := version, Content := content }
      else ds.documents u }

/-- `DocumentStore.Update`: updates an existing document in place and
reports `true`; reports `false` and leaves the store untouched when the
uri is unknown. -/
def DocumentStore.Update (ds : DocumentStore) (uri : String) (version : Int)
    (content : String) : DocumentStore × Bool :=
  match ds.documents uri with
  | some doc =>
    ({ documents := fun u =>
        if u = uri then
          some { URI := doc.URI, Version := version, Content := content }
        else ds.documents u }, true)
  | none => (ds, false)

/-- `DocumentStore.Close`: removes the document. -/
def DocumentStore.Close (ds : DocumentStore) (uri : String) : DocumentStore :=
  { documents := fun u => if u = uri then none else ds.documents u }

/-- `DocumentStore.Get`. -/
def DocumentStore.Get (ds : DocumentStore) (uri : String) : Option Document :=
  ds.documents uri

/-- The document manager: raw documents plus parsed models.  A stored
`some none` model records a parse failure (the Go code stores `nil`). -/
structure Manager where
  documentStore : DocumentStore
  modelStore : String → Option (Option YamlDoc.DocumentModel)

/-- `parseAndStoreModel`: parses and stores the model, storing `nil` when
the parse fails.  The YAML parser front end is passed in as `parse`. -/
def parseAndStoreModel (parse : String → Option YamlDoc.DocumentModel)
    (m : Manager) (uri content : String) : Manager :=
  match parse content with
  | none =>
    { m with modelStore := fun u => if u = uri then some none else m.modelStore u }
  | some model =>
    { m with modelStore := fun u => if u = uri then some (some model) else m.modelStore u }

/-- `Manager.OpenDocument`. -/
def OpenDocument (parse : String → Option YamlDoc.DocumentModel)
    (m : Manager) (uri : String) (version : Int) (content : String) : Manager :=
  parseAndStoreModel parse
    { m with documentStore := m.documentStore.Open uri version content }
    uri content

/-- `Manager.UpdateDocument`: when the store update reports an unknown
uri, the manager logs and returns without touching the model store. -/
def UpdateDocument (parse : String → Option YamlDoc.DocumentModel)
    (m : Manager) (uri : String) (version : Int) (content : String) : Manager :=
  let upd := m.documentStore.Update uri version content
  let m1 : Manager := { m with documentStore := upd.1 }
  if upd.2 then parseAndStoreModel parse m1 uri content else m1

/-- `Manager.CloseDocument`. -/
def CloseDocument (m : Manager) (uri : String) : Manager :=
  { documentStore := m.documentStore.Close uri,
    modelStore := fun u => if u = uri then none else m.modelStore u }

/-- `Manager.GetDocumentType` on a looked-up model (the nil-model case is
filtered out by the validation manager before this is reached). -/
def GetDocumentType : Option YamlDoc.DocumentModel → DocumentType
  | none => .unknown
  | some model =>
    match model.RootMap "apiVersion", model.RootMap "kind" with
    | some apiVersion, some kind =>
      match apiVersion.Value, kind.Value with
      | .str apiVersionStr, .str kindStr =>
        if apiVersionStr == "kro.run/v1alpha1" &&
            kindStr == "ResourceGraphDefinition" then
          .rgd
        else .yaml
      | _, _ => .yaml
    | _, _ => .yaml

end DocumentPkg

/-! ## CRD schema manager

`tools/lsp/server/validation/crd_manager.go`.  The two cache maps are
modelled as map values; `updateCache` builds brand-new maps, so the state
it receives is discarded — exactly as in the source, where fresh maps are
assigned over the old fields.  Timestamps (`LastUpdate`) are not
modelled.
-/

namespace CrdMgr

/-- Resource-type identity. -/
structure GroupVersionKind where
  Group : String
  Version : String
  Kind : String
deriving DecidableEq

/-- A mined constraint rule. -/
structure CELRule where
  Rule : String
  Message : String
  Path : String
deriving DecidableEq

/-- A cached schema record.  Of the embedded `CustomResourceDefinition`
only its `Name` is read by the cache logic; `OpenAPISchema` is consulted
only for nil-ness by `ValidateAgainstCRD`. -/
structure CRDSchema where
  Name : String
  GVK : GroupVersionKind
  hasOpenAPISchema : Bool
  CELRules : List CELRule
  Source : String
deriving DecidableEq

/-- The manager's cache state. -/
structure CRDManagerState where
  crdCache : String → Option CRDSchema
  gvkIndex : GroupVersionKind → Option CRDSchema

/-- One iteration of the `updateCache` population loop: the two map
assignments for one record. -/
def cacheInsert (st : CRDManagerState) (s : CRDSchema) : CRDManagerState :=
  { crdCache := fun key =>
      if key = s.Source ++ "/" ++ s.Name then some s else st.crdCache key,
    gvkIndex := fun gvk =>
      if gvk = s.GVK then some s else st.gvkIndex gvk }

/-- `updateCache`: clears both maps and repopulates them from the given
records; on identity collisions the later record overwrites the earlier
one. -/
def updateCache (_old : CRDManagerState) (schemas : List CRDSchema) :
    CRDManagerState :=
  schemas.foldl cacheInsert
    { crdCache := fun _ => none, gvkIndex := fun _ => none }

/-- `GetCRDByGVK`. -/
def GetCRDByGVK (m : CRDManagerState) (gvk : GroupVersionKind) :
    Option CRDSchema :=
  m.gvkIndex gvk

/-- Validation strictness. -/
inductive ValidationMode where
  | strict
  | permissive
  | off
deriving DecidableEq

/-- An editor diagnostic (only the fields the stubs could populate). -/
structure Diagnostic where
  Message : String
deriving DecidableEq

/-- `validateOpenAPISchema`: a TODO stub in the source, returning
`(nil, nil)`. -/
def validateOpenAPISchema (_document : GoMap)
    (_schemaPresent : Bool) : List Diagnostic :=
  []

/-- `validateCELRules`: a TODO stub in the source, returning
`(nil, nil)`. -/
def validateCELRules (_document : GoMap) (_rules : List CELRule) :
    List Diagnostic :=
  []

/-- `ValidateAgainstCRD`: mode-off and cache-miss return no diagnostics;
on a hit the two (stubbed) checkers run.  Their Go error results are
always nil, so the error branches of the source are unreachable and the
result is the plain diagnostics list. -/
def ValidateAgainstCRD (mode : ValidationMode) (m : CRDManagerState)
    (gvk : GroupVersionKind) (document : GoMap) : List Diagnostic :=
  if mode = .off then []
  else
    match GetCRDByGVK m gvk with
    | none => []
    | some schema =>
      (if schema.hasOpenAPISchema then
        validateOpenAPISchema document schema.hasOpenAPISchema
      else []) ++
      (if schema.CELRules.length > 0 then
        validateCELRules document schema.CELRules
      else [])

end CrdMgr

/-! ## CRD sources

`tools/lsp/server/validation/crd_sources.go`.  The HTTP fetch is
abstracted: `loadCRDsFromGitHub` is modelled from the point where the
downloaded file body is in hand, with `yaml.Unmarshal` into a
`CustomResourceDefinition` supplied as the `parse` parameter.
-/

namespace CrdSrc

/-- An `x-kubernetes-validations` entry. -/
structure XValidation where
  Rule : String
  Message : String
  MessageExpression : String
deriving DecidableEq

/-- The OpenAPI schema subset read by the source loader. -/
inductive JSONSchemaProps where
  | mk (xValidations : List XValidation)
       (properties : List (String × JSONSchemaProps))
       (items : Option JSONSchemaProps)

/-- Accessor for the validations of a schema node. -/
def JSONSchemaProps.xValidations : JSONSchemaProps → List XValidation
  | .mk v _ _ => v

/-- Accessor for the properties of a schema node. -/
def JSONSchemaProps.properties : JSONSchemaProps → List (String × JSONSchemaProps)
  | .mk _ p _ => p

/-- Accessor for the items schema of a schema node. -/
def JSONSchemaProps.items : JSONSchemaProps → Option JSONSchemaProps
  | .mk _ _ i => i

/-- One served-or-not version of a CRD. -/
structure CRDVersion where
  Name : String
  Served : Bool
  OpenAPIV3Schema : Option JSONSchemaProps
deriving Inhabited

/-- The fields of a `CustomResourceDefinition` read by the loader. -/
structure CustomResourceDefinition where
  Kind : String
  Name : String
  SpecGroup : String
  SpecNamesKind : String
  SpecVersions : List CRDVersion
deriving Inhabited

/-- A CEL validation rule mined from a schema. -/
structure CELValidationRule where
  Rule : String
  Message : String
  MessagePath : String
  FieldPath : String
deriving DecidableEq

/-- A schema record emitted by the source (`CRDSchema` of the sources
variant; the embedded CRD is kept by reference in Go and is represented
here by the fields the pipeline populates). -/
structure SchemaRecord where
  GVK : CrdMgr.GroupVersionKind
  hasSchema : Bool
  CELRules : List CELValidationRule

mutual

/-- `extractCELRules`: collects validation rules at this node, then
recurses into every property and into array items. -/
def extractCELRules : JSONSchemaProps → String → List CELValidationRule
  | .mk xvals props items, path =>
    (xvals.map (fun v =>
      { Rule := v.Rule, Message := v.Message,
        MessagePath := if v.MessageExpression ≠ "" then v.MessageExpression else "",
        FieldPath := path })) ++
    extractCELRulesProps props path ++
    (match items with
     | some itemSchema => extractCELRules itemSchema (path ++ "[]")
     | none => [])

/-- Property recursion of `extractCELRules`. -/
def extractCELRulesProps : List (String × JSONSchemaProps) → String →
    List CELValidationRule
  | [], _ => []
  | (propName, propSchema) :: rest, path =>
    extractCELRules propSchema
      ((if path ≠ "" then path ++ "." else path) ++ propName) ++
    extractCELRulesProps rest path

end

/-- `splitYAMLDocuments`: split on `\n---\n`, then trim each part, strip a
stray leading or trailing `---`, trim again, and keep the non-empty
parts. -/
def splitYAMLDocuments (yamlContent : String) : List String :=
  ((GoStr.goSplit yamlContent "\n---\n").map (fun doc =>
    let d1 := GoStr.goTrimSpace doc
    let d2 := if GoStr.goHasPrefix d1 "---" then GoStr.goTrimPrefix d1 "---" else d1
    let d3 := if GoStr.goHasSuffix d2 "---" then GoStr.goTrimSuffix d2 "---" else d2
    GoStr.goTrimSpace d3)).filter (fun d => d ≠ "")

/-- The records emitted for one CRD: one per served version, carrying
that version's schema and its mined rules. -/
def recordsOfCRD (crd : CustomResourceDefinition) : List SchemaRecord :=
  (crd.SpecVersions.filter (fun v => v.Served)).map (fun version =>
    { GVK := { Group := crd.SpecGroup, Version := version.Name,
               Kind := crd.SpecNamesKind },
      hasSchema := version.OpenAPIV3Schema.isSome,
      CELRules :=
        match version.OpenAPIV3Schema with
        | some s => extractCELRules s ""
        | none => [] })

/-- The per-document processing of `loadCRDsFromGitHub`: skip blank
documents, documents `yaml.Unmarshal` rejects, and non-CRD documents;
otherwise emit the served-version records. -/
def recordsOfDocs (parse : String → Option CustomResourceDefinition) :
    List String → List SchemaRecord
  | [] => []
  | doc :: rest =>
    (if GoStr.goTrimSpace doc = "" then []
     else
       match parse doc with
       | none => []
       | some crd =>
         if crd.Kind ≠ "CustomResourceDefinition" then []
         else recordsOfCRD crd) ++
    recordsOfDocs parse rest

/-- `loadCRDsFromGitHub` from the point where the file body has been
downloaded: split into documents, process each, and fail when no record
was produced. -/
def loadCRDsFromGitHub (parse : String → Option CustomResourceDefinition)
    (fileName data : String) : Except String (List SchemaRecord) :=
  let schemas := recordsOfDocs parse (splitYAMLDocuments data)
  if schemas.length = 0 then
    .error ("no valid CRDs found in file " ++ fileName)
  else
    .ok schemas

end CrdSrc

/-! ## RGD validator

`tools/lsp/server/validation/rgd_validator.go`.  Positions: the source
resolves each error's line through `getLineNumber` over the parsed YAML
node tree; that resolution is abstracted as the `lineOf` parameter mapping
an error path to a line.  `createDiagnostic` converts each
`ValidationError` to exactly one diagnostic, so diagnostic counts equal
error counts and the theorems are stated on the error lists.
-/

namespace RgdValidator

/-- Error severity. -/
inductive ValidationSeverity where
  | error
  | warning
  | info
deriving DecidableEq

/-- A validation error with its position information. -/
structure ValidationError where
  Message : String
  Line : Int
  Severity : ValidationSeverity
  Rule : String
  Path : String
deriving DecidableEq

/-- An external resource reference. -/
structure ExternalRef where
  APIVersion : String
  Kind : String
  Metadata : Option GoMap

/-- A resource definition within an RGD. -/
structure RGDResource where
  ID : String
  Template : Option GoMap
  ExternalRef : Option ExternalRef

/-- The schema definition within an RGD. -/
structure RGDSchema where
  Kind : String
  APIVersion : String
  Group : String
  Spec : Option GoMap
  Status : Option GoMap
  Types : Option GoMap

/-- A parsed RGD document. -/
structure ParsedRGD where
  APIVersion : String
  Kind : String
  Metadata : Option GoMap
  Schema : Option RGDSchema
  Resources : List RGDResource

/-- Valid base types for schema fields. -/
def validBaseTypes : List String :=
  ["string", "integer", "boolean", "number", "object"]

/-- Valid modifiers for schema fields. -/
def validModifiers : List String :=
  ["required", "default", "description", "minimum", "maximum", "enum",
   "format", "pattern", "minLength", "maxLength", "minItems", "maxItems",
   "uniqueItems"]

/-- Reserved words in Kro. -/
def reservedWords : List String :=
  ["apiVersion", "context", "dependency", "dependencies", "externalRef",
   "externalReference", "externalRefs", "externalReferences", "graph",
   "instance", "kind", "metadata", "namespace", "object", "resource",
   "resourcegraphdefinition", "resources", "runtime", "serviceAccountName",
   "schema", "spec", "status", "kro", "variables", "vars", "version"]

/-- `isValidKindName`: the UpperCamelCase pattern
`^[A-Z][a-zA-Z0-9]*$`. -/
def isValidKindName (name : String) : Bool :=
  match name.toList with
  | [] => false
  | c :: rest => ('A' ≤ c && c ≤ 'Z') && rest.all GoStr.isAlnumChar

/-- `isValidResourceID`: the lowerCamelCase pattern
`^[a-z][a-zA-Z0-9]*$`. -/
def isValidResourceID (id : String) : Bool :=
  match id.toList with
  | [] => false
  | c :: rest => ('a' ≤ c && c ≤ 'z') && rest.all GoStr.isAlnumChar

/-- `isKroReservedWord`: case-insensitive membership in the reserved-word
list. -/
def isKroReservedWord (word : String) : Bool :=
  reservedWords.any (fun reserved => GoStr.goEqualFold word reserved)

/-- `validateKubernetesVersion`: the pattern
`^v\d+(?:(?:alpha|beta)\d+)?$`. -/
def validateKubernetesVersion (version : String) : Bool :=
  match version.toList with
  | 'v' :: rest =>
    let digits := rest.takeWhile GoStr.isDigitChar
    let tail := rest.dropWhile GoStr.isDigitChar
    digits ≠ [] &&
      (tail = [] ||
        (let afterWord :=
          if ['a', 'l', 'p', 'h', 'a'].isPrefixOf tail then
            some (tail.drop 5)
          else if ['b', 'e', 't', 'a'].isPrefixOf tail then
            some (tail.drop 4)
          else none
        match afterWord with
        | some ds => ds ≠ [] && ds.all GoStr.isDigitChar
        | none => false))
  | _ => false

/-- `isRGDDocument` on the unmarshalled document map: both `apiVersion`
and `kind` must be strings with the RGD literals. -/
def isRGDDocument (doc : GoMap) : Bool :=
  match asStr (lookupGo doc "apiVersion"), asStr (lookupGo doc "kind") with
  | some apiVersion, some kind =>
    apiVersion == "kro.run/v1alpha1" && kind == "ResourceGraphDefinition"
  | _, _ => false

/-- `parseRGDResource`: a resource from its map (never fails). -/
def parseRGDResource (resourceMap : GoMap) : RGDResource :=
  { ID := (asStr (lookupGo resourceMap "id")).getD "",
    Template := asMap (lookupGo resourceMap "template"),
    ExternalRef :=
      (asMap (lookupGo resourceMap "externalRef")).map (fun er =>
        { APIVersion := (asStr (lookupGo er "apiVersion")).getD "",
          Kind := (asStr (lookupGo er "kind")).getD "",
          Metadata := asMap (lookupGo er "metadata") }) }

/-- The resource elements of `spec.resources` that are maps (non-map
entries are skipped by the parse loop). -/
def parseResources (resources : List GoVal) : List RGDResource :=
  resources.foldr
    (fun res acc =>
      match res with
      | .map resourceMap => parseRGDResource resourceMap :: acc
      | _ => acc)
    []

/-- `parseRGDSpec` restricted to the schema section. -/
def parseRGDSchema (spec : GoMap) : Option RGDSchema :=
  (asMap (lookupGo spec "schema")).map (fun schema =>
    { Kind := (asStr (lookupGo schema "kind")).getD "",
      APIVersion := (asStr (lookupGo schema "apiVersion")).getD "",
      Group := (asStr (lookupGo schema "group")).getD "",
      Spec := asMap (lookupGo schema "spec"),
      Status := asMap (lookupGo schema "status"),
      Types := asMap (lookupGo schema "types") })

/-- `parseRGDWithPositions` from the unmarshalled document map. -/
def parseRGD (doc : GoMap) : ParsedRGD :=
  let spec := asMap (lookupGo doc "spec")
  { APIVersion := (asStr (lookupGo doc "apiVersion")).getD "",
    Kind := (asStr (lookupGo doc "kind")).getD "",
    Metadata := asMap (lookupGo doc "metadata"),
    Schema :=
      match spec with
      | some s => parseRGDSchema s
      | none => none,
    Resources :=
      match spec with
      | some s =>
        match asArr (lookupGo s "resources") with
        | some resources => parseResources resources
        | none => []
      | none => [] }

/-- `validateBasicStructure`. -/
def validateBasicStructure (lineOf : String → Int) (rgd : ParsedRGD) :
    List ValidationError :=
  (if rgd.APIVersion = "" then
    [{ Message := "apiVersion is required", Line := lineOf "apiVersion",
       Severity := .error, Rule := "required-field", Path := "apiVersion" }]
  else if rgd.APIVersion ≠ "kro.run/v1alpha1" then
    [{ Message := "apiVersion must be 'kro.run/v1alpha1'",
       Line := lineOf "apiVersion", Severity := .error,
       Rule := "invalid-api-version", Path := "apiVersion" }]
  else []) ++
  (if rgd.Kind = "" then
    [{ Message := "kind is required", Line := lineOf "kind",
       Severity := .error, Rule := "required-field", Path := "kind" }]
  else if rgd.Kind ≠ "ResourceGraphDefinition" then
    [{ Message := "kind must be 'ResourceGraphDefinition'",
       Line := lineOf "kind", Severity := .error,
       Rule := "invalid-kind", Path := "kind" }]
  else [])

/-- `validateMetadata`. -/
def validateMetadata (lineOf : String → Int) (rgd : ParsedRGD) :
    List ValidationError :=
  match rgd.Metadata with
  | none =>
    [{ Message := "metadata is required", Line := lineOf "metadata",
       Severity := .error, Rule := "required-field", Path := "metadata" }]
  | some metadata =>
    if metadata.length = 0 then
      [{ Message := "metadata is required", Line := lineOf "metadata",
         Severity := .error, Rule := "required-field", Path := "metadata" }]
    else
      match lookupGo metadata "name" with
      | none =>
        [{ Message := "metadata.name is required",
           Line := lineOf "metadata.name", Severity := .error,
           Rule := "required-field", Path := "metadata.name" }]
      | some (.str nameStr) =>
        if nameStr = "" then
          [{ Message := "metadata.name cannot be empty",
             Line := lineOf "metadata.name", Severity := .error,
             Rule := "empty-name", Path := "metadata.name" }]
        else []
      | some _ =>
        [{ Message := "metadata.name must be a string",
           Line := lineOf "metadata.name", Severity := .error,
           Rule := "invalid-type", Path := "metadata.name" }]

/-- `parseModifiers` loop state: the quote character when inside quotes. -/
def parseModifiersLoop : List Char → Option Char → List Char → List String
  | [], _, current =>
    if current.length > 0 then [String.mk current.reverse] else []
  | c :: rest, none, current =>
    if c = '\'' || c = '"' then
      parseModifiersLoop rest (some c) (c :: current)
    else if c = ' ' then
      if current.length > 0 then
        String.mk current.reverse :: parseModifiersLoop rest none []
      else
        parseModifiersLoop rest none []
    else
      parseModifiersLoop rest none (c :: current)
  | c :: rest, some quoteChar, current =>
    if c = quoteChar then
      parseModifiersLoop rest none (c :: current)
    else
      parseModifiersLoop rest (some quoteChar) (c :: current)

/-- `parseModifiers`: quote-aware whitespace tokenization of the modifier
string. -/
def parseModifiers (modifiers : String) : List String :=
  parseModifiersLoop modifiers.toList none []

/-- `validateModifierValue`: per-modifier value checks. -/
def validateModifierValue (lineOf : String → Int) (name value path : String) :
    List ValidationError :=
  if name = "required" then
    if value ≠ "true" && value ≠ "false" then
      [{ Message := "required modifier must be 'true' or 'false'",
         Line := lineOf path, Severity := .error,
         Rule := "invalid-value", Path := path }]
    else []
  else if name = "minimum" || name = "maximum" then
    if !GoStr.goParseFloatOk value then
      [{ Message := name ++ " modifier must be a number",
         Line := lineOf path, Severity := .error,
         Rule := "invalid-value", Path := path }]
    else []
  else if name = "minLength" || name = "maxLength" ||
      name = "minItems" || name = "maxItems" then
    if !GoStr.goAtoiOk value then
      [{ Message := name ++ " modifier must be an integer",
         Line := lineOf path, Severity := .error,
         Rule := "invalid-value", Path := path }]
    else []
  else if name = "uniqueItems" then
    if value ≠ "true" && value ≠ "false" then
      [{ Message := "uniqueItems modifier must be 'true' or 'false'",
         Line := lineOf path, Severity := .error,
         Rule := "invalid-value", Path := path }]
    else []
  else []

/-- The per-pair body of the `validateModifiers` loop. -/
def validateModifierPair (lineOf : String → Int) (pair path : String) :
    List ValidationError :=
  match GoStr.goSplitN2 pair "=" with
  | [modName, modValue] =>
    let modifierName := GoStr.goTrimSpace modName
    let modifierValue := GoStr.goTrimSpace modValue
    if !(validModifiers.contains modifierName) then
      [{ Message := "invalid modifier '" ++ modifierName ++
           "'. Valid modifiers are: required, default, description, minimum, maximum, enum, format, pattern, minLength, maxLength, minItems, maxItems, uniqueItems",
         Line := lineOf path, Severity := .error,
         Rule := "invalid-modifier", Path := path }]
    else
      validateModifierValue lineOf modifierName modifierValue path
  | _ =>
    [{ Message := "invalid modifier syntax: " ++ pair,
       Line := lineOf path, Severity := .error,
       Rule := "invalid-syntax", Path := path }]

/-- `validateModifiers`: tokenize, then check each `key=value` pair. -/
def validateModifiers (lineOf : String → Int) (modifiers path : String) :
    List ValidationError :=
  (parseModifiers modifiers).foldr
    (fun pair acc => validateModifierPair lineOf pair path ++ acc) []

/-- The regex-equivalent split of `map[K]V`: the greedy `^map\[(.+)\](.+)$`
match picks the last `]` that leaves non-empty key and value parts.
`lastBracketSplit l` returns `(before, after)` for the last `]` in `l`
with a non-empty suffix. -/
def lastBracketSplit : List Char → Option (List Char × List Char)
  | [] => none
  | c :: rest =>
    match lastBracketSplit rest with
    | some (a, b) => some (c :: a, b)
    | none =>
      if c = ']' ∧ rest ≠ [] then some ([], rest) else none

/-- The `map[...]...` regex match on a string already known to start with
`map[`; fails exactly when the regex fails to produce the two groups. -/
def mapTypeMatch (baseType : String) : Option (String × String) :=
  match lastBracketSplit (baseType.toList.drop 4) with
  | some (a, b) => if a ≠ [] then some (String.mk a, String.mk b) else none
  | none => none

/-- `validateBaseType`, structured by remaining fuel: each recursive call
strictly shrinks the type expression, so the wrapper's fuel
(`goLen baseType + 1`) is never exhausted. -/
def validateBaseTypeFuel (lineOf : String → Int) :
    Nat → String → String → List ValidationError
  | 0, _, _ => []
  | fuel + 1, baseType, path =>
    if baseType = "" then
      [{ Message := "base type cannot be empty", Line := lineOf path,
         Severity := .error, Rule := "empty-type", Path := path }]
    else if validBaseTypes.contains baseType then []
    else if GoStr.goHasPrefix baseType "[]" then
      let elementType := GoStr.goTrimPrefix baseType "[]"
      if elementType = "" then
        [{ Message := "array element type cannot be empty",
           Line := lineOf path, Severity := .error,
           Rule := "empty-element-type", Path := path }]
      else
        validateBaseTypeFuel lineOf fuel elementType path
    else if GoStr.goHasPrefix baseType "map[" then
      match mapTypeMatch baseType with
      | none =>
        [{ Message := "invalid map type syntax: " ++ baseType,
           Line := lineOf path, Severity := .error,
           Rule := "invalid-syntax", Path := path }]
      | some (keyRaw, valueRaw) =>
        validateBaseTypeFuel lineOf fuel (GoStr.goTrimSpace keyRaw) path ++
        validateBaseTypeFuel lineOf fuel (GoStr.goTrimSpace valueRaw) path
    else
      [{ Message := "invalid type '" ++ baseType ++
           "'. Valid types are: string, integer, boolean, number, object",
         Line := lineOf path, Severity := .error,
         Rule := "invalid-type", Path := path }]

/-- `validateBaseType`. -/
def validateBaseType (lineOf : String → Int) (baseType path : String) :
    List ValidationError :=
  validateBaseTypeFuel lineOf (GoStr.goLen baseType + 1) baseType path

/-- `validateFieldDefinition`: split on `|`, check the base type, and
check the modifiers of the second part when present (later parts are
ignored by the source). -/
def validateFieldDefinition (lineOf : String → Int) (fieldDef path : String) :
    List ValidationError :=
  match GoStr.goSplit fieldDef "|" with
  | [] =>
    [{ Message := "field definition cannot be empty", Line := lineOf path,
       Severity := .error, Rule := "empty-definition", Path := path }]
  | part0 :: restParts =>
    validateBaseType lineOf (GoStr.goTrimSpace part0) path ++
    (match restParts with
     | [] => []
     | part1 :: _ => validateModifiers lineOf (GoStr.goTrimSpace part1) path)

/-- `validateSchemaFields`: per-field naming, reserved-word and definition
checks, recursing into nested objects.  Go iterates the map in
unspecified order; the association list's order stands in for it. -/
def validateSchemaFields (lineOf : String → Int) :
    GoMap → String → List ValidationError
  | [], _ => []
  | (fieldName, fieldDef) :: rest, basePath =>
    let fieldPath := basePath ++ "." ++ fieldName
    (if !isValidResourceID fieldName then
      [{ Message := "field name '" ++ fieldName ++ "' must be lowerCamelCase",
         Line := lineOf fieldPath, Severity := .error,
         Rule := "invalid-naming", Path := fieldPath }]
    else []) ++
    (if isKroReservedWord fieldName then
      [{ Message := "field name '" ++ fieldName ++ "' is a reserved word",
         Line := lineOf fieldPath, Severity := .error,
         Rule := "reserved-word", Path := fieldPath }]
    else []) ++
    (match fieldDef with
     | .str fieldDefStr => validateFieldDefinition lineOf fieldDefStr fieldPath
     | .map fieldDefMap => validateSchemaFields lineOf fieldDefMap fieldPath
     | _ =>
       [{ Message := "field definition must be a string or object",
          Line := lineOf fieldPath, Severity := .error,
          Rule := "invalid-type", Path := fieldPath }]) ++
    validateSchemaFields lineOf rest basePath

/-- `validateSchema`. -/
def validateSchema (lineOf : String → Int) (schema : RGDSchema) :
    List ValidationError :=
  (if schema.Kind = "" then
    [{ Message := "spec.schema.kind is required",
       Line := lineOf "spec.schema.kind", Severity := .error,
       Rule := "required-field", Path := "spec.schema.kind" }]
  else if !isValidKindName schema.Kind then
    [{ Message := "spec.schema.kind '" ++ schema.Kind ++
         "' must be UpperCamelCase",
       Line := lineOf "spec.schema.kind", Severity := .error,
       Rule := "invalid-naming", Path := "spec.schema.kind" }]
  else []) ++
  (if schema.APIVersion ≠ "" then
    if !validateKubernetesVersion schema.APIVersion then
      [{ Message := "spec.schema.apiVersion '" ++ schema.APIVersion ++
           "' is not a valid Kubernetes version",
         Line := lineOf "spec.schema.apiVersion", Severity := .error,
         Rule := "invalid-version", Path := "spec.schema.apiVersion" }]
    else []
  else []) ++
  (match schema.Spec with
   | some fields => validateSchemaFields lineOf fields "spec.schema.spec"
   | none => []) ++
  (match schema.Status with
   | some fields => validateSchemaFields lineOf fields "spec.schema.status"
   | none => [])

/-- `validateKubernetesObjectStructure`: the first failing requirement, or
none. -/
def validateKubernetesObjectStructure (obj : GoMap) : Option String :=
  match lookupGo obj "apiVersion" with
  | none => some "apiVersion field is required"
  | some apiVersion =>
    match apiVersion with
    | .str _ =>
      match lookupGo obj "kind" with
      | none => some "kind field is required"
      | some kind =>
        match kind with
        | .str _ =>
          match lookupGo obj "metadata" with
          | none => some "metadata field is required"
          | some metadata =>
            match metadata with
            | .map _ => none
            | _ => some "metadata must be an object"
        | _ => some "kind must be a string"
    | _ => some "apiVersion must be a string"

/-- `validateResourceTemplate`. -/
def validateResourceTemplate (lineOf : String → Int) (template : GoMap)
    (path : String) : List ValidationError :=
  match validateKubernetesObjectStructure template with
  | some errMsg =>
    [{ Message := "invalid Kubernetes object: " ++ errMsg,
       Line := lineOf path, Severity := .error,
       Rule := "invalid-k8s-structure", Path := path }]
  | none => []

/-- `validateExternalRef`. -/
def validateExternalRef (lineOf : String → Int) (externalRef : ExternalRef)
    (path : String) : List ValidationError :=
  (if externalRef.APIVersion = "" then
    [{ Message := "externalRef.apiVersion is required",
       Line := lineOf (path ++ ".apiVersion"), Severity := .error,
       Rule := "required-field", Path := path ++ ".apiVersion" }]
  else []) ++
  (if externalRef.Kind = "" then
    [{ Message := "externalRef.kind is required",
       Line := lineOf (path ++ ".kind"), Severity := .error,
       Rule := "required-field", Path := path ++ ".kind" }]
  else [])

/-- The id-related errors of one resource, together with the updated
seen-id set (the id is recorded only when it is non-empty and not yet
seen). -/
def resourceIdErrors (lineOf : String → Int) (resourcePath : String)
    (id : String) (seenIDs : List String) :
    List ValidationError × List String :=
  if id = "" then
    ([{ Message := "resource id is required",
        Line := lineOf (resourcePath ++ ".id"), Severity := .error,
        Rule := "required-field", Path := resourcePath ++ ".id" }], seenIDs)
  else
    ((if !isValidResourceID id then
        [{ Message := "resource id '" ++ id ++ "' must be lowerCamelCase",
           Line := lineOf (resourcePath ++ ".id"), Severity := .error,
           Rule := "invalid-naming", Path := resourcePath ++ ".id" }]
      else []) ++
      (if isKroReservedWord id then
        [{ Message := "resource id '" ++ id ++ "' is a reserved word",
           Line := lineOf (resourcePath ++ ".id"), Severity := .error,
           Rule := "reserved-word", Path := resourcePath ++ ".id" }]
      else []) ++
      (if seenIDs.contains id then
        [{ Message := "duplicate resource id '" ++ id ++ "'",
           Line := lineOf (resourcePath ++ ".id"), Severity := .error,
           Rule := "duplicate-id", Path := resourcePath ++ ".id" }]
      else []),
      if seenIDs.contains id then seenIDs else id :: seenIDs)

/-- The template/externalRef shape errors of one resource: a present
template is validated as a Kubernetes object; only a resource with
neither field is flagged; a present externalRef is validated. -/
def resourceShapeErrors (lineOf : String → Int) (resourcePath : String)
    (resource : RGDResource) : List ValidationError :=
  (match resource.Template with
   | some template =>
     validateResourceTemplate lineOf template (resourcePath ++ ".template")
   | none =>
     match resource.ExternalRef with
     | none =>
       [{ Message := "resource must have either 'template' or 'externalRef'",
          Line := lineOf resourcePath, Severity := .error,
          Rule := "missing-resource-definition", Path := resourcePath }]
     | some _ => []) ++
  (match resource.ExternalRef with
   | some externalRef =>
     validateExternalRef lineOf externalRef (resourcePath ++ ".externalRef")
   | none => [])

/-- The indexed loop of `validateResources`. -/
def validateResourcesLoop (lineOf : String → Int) :
    Nat → List String → List RGDResource → List ValidationError
  | _, _, [] => []
  | i, seenIDs, resource :: rest =>
    let resourcePath := "spec.resources[" ++ toString i ++ "]"
    let idStep := resourceIdErrors lineOf resourcePath resource.ID seenIDs
    idStep.1 ++
    resourceShapeErrors lineOf resourcePath resource ++
    validateResourcesLoop lineOf (i + 1) idStep.2 rest

/-- `validateResources`. -/
def validateResources (lineOf : String → Int) (resources : List RGDResource) :
    List ValidationError :=
  if resources.length = 0 then []
  else validateResourcesLoop lineOf 0 [] resources

/-- `validateSpecSection`. -/
def validateSpecSection (lineOf : String → Int) (rgd : ParsedRGD) :
    List ValidationError :=
  (match rgd.Schema with
   | some schema => validateSchema lineOf schema
   | none => []) ++
  validateResources lineOf rgd.Resources

/-- `validateRGDComprehensive`: basic structure, then metadata, then the
spec section when a schema or resources were parsed. -/
def validateRGDComprehensive (lineOf : String → Int) (rgd : ParsedRGD) :
    List ValidationError :=
  validateBasicStructure lineOf rgd ++
  validateMetadata lineOf rgd ++
  (if rgd.Schema.isSome || rgd.Resources.length > 0 then
    validateSpecSection lineOf rgd
  else [])

/-- `ValidateRGD` on a successfully unmarshalled document map: documents
that fail the RGD classification are skipped with no diagnostics. -/
def ValidateRGD (lineOf : String → Int) (doc : GoMap) :
    List ValidationError :=
  if !isRGDDocument doc then []
  else validateRGDComprehensive lineOf (parseRGD doc)

end RgdValidator

/-! ## Specification-side companion definitions

Small reference functions stating, in the spec's vocabulary, what the
loops above are compared against, plus concrete instances used to settle
the scenario claims.
-/

namespace RgdValidator

/-- The rules `validateResources` can attach to errors (there is, in
particular, no mutual-exclusivity rule). -/
def resourceStageRules : List String :=
  ["required-field", "invalid-naming", "reserved-word", "duplicate-id",
   "invalid-k8s-structure", "missing-resource-definition"]

/-- Repeat counter in the spec's words: the first occurrence of each
non-empty id is recorded as seen, and each later occurrence counts as one
repeat. -/
def specRepeatCount (seen : List String) : List String → Nat
  | [] => 0
  | id :: rest =>
    if id = "" then specRepeatCount seen rest
    else if seen.contains id then specRepeatCount seen rest + 1
    else specRepeatCount (id :: seen) rest

/-- A minimal well-formed Kubernetes object template. -/
def tplOk : GoMap :=
  [("apiVersion", .str "v1"), ("kind", .str "ConfigMap"), ("metadata", .map [])]

/-- A resource carrying both a template and an externalRef. -/
def resBoth : RGDResource :=
  { ID := "goodId", Template := some tplOk,
    ExternalRef := some { APIVersion := "v1", Kind := "ConfigMap", Metadata := none } }

/-- A resource with id `foo`. -/
def resFoo : RGDResource :=
  { ID := "foo", Template := some tplOk, ExternalRef := none }

/-- A document map with no `kind` key. -/
def docNoKind : GoMap :=
  [("apiVersion", .str "kro.run/v1alpha1"), ("metadata", .map [("name", .str "x")])]

end RgdValidator

namespace YamlDoc

/-- A parsed document model whose root map has no `kind` key. -/
def modelNoKind : DocumentModel :=
  { RootMap := fun k =>
      if k = "apiVersion" then
        some { Value := .str "kro.run/v1alpha1", Children := [] }
      else none,
    RootNode := none }

/-- The last non-nil document body of a parse input (the one whose tree
survives in `RootNode`). -/
def lastBody : List (Option YamlAst) → Option YamlAst
  | [] => none
  | none :: rest => lastBody rest
  | some b :: rest =>
    match lastBody rest with
    | some later => some later
    | none => some b

/-- The last binding of a key within one document's top-level pairs
(later pairs override earlier ones in a Go map). -/
def lastBinding (pairs : List (String × YamlAst)) (k : String) : Option YamlAst :=
  (pairs.reverse.find? (fun kv => kv.1 == k)).map (fun kv => kv.2)

/-- The value the accumulated root map associates to a key: the last
binding of the key in the latest document that binds it. -/
def lastTopValue (docs : List (Option YamlAst)) (k : String) : Option YamlAst :=
  match docs with
  | [] => none
  | d :: rest =>
    match lastTopValue rest k with
    | some v => some v
    | none =>
      match d with
      | some b => lastBinding (topPairs b) k
      | none => none

end YamlDoc

namespace CrdSrc

/-- Scenario E instances: three CRDs with two, one and one served
versions (plus one non-served version each on the first and third), and a
non-CRD document. -/
def crdOne : CustomResourceDefinition :=
  { Kind := "CustomResourceDefinition", Name := "ones.example.com",
    SpecGroup := "example.com", SpecNamesKind := "One",
    SpecVersions :=
      [{ Name := "v1alpha1", Served := false, OpenAPIV3Schema := none },
       { Name := "v1", Served := true, OpenAPIV3Schema := none },
       { Name := "v2", Served := true, OpenAPIV3Schema := none }] }

/-- Second scenario CRD. -/
def crdTwo : CustomResourceDefinition :=
  { Kind := "CustomResourceDefinition", Name := "twos.example.com",
    SpecGroup := "example.com", SpecNamesKind := "Two",
    SpecVersions := [{ Name := "v1", Served := true, OpenAPIV3Schema := none }] }

/-- Third scenario CRD. -/
def crdThree : CustomResourceDefinition :=
  { Kind := "CustomResourceDefinition", Name := "threes.example.com",
    SpecGroup := "example.com", SpecNamesKind := "Three",
    SpecVersions :=
      [{ Name := "v1", Served := true, OpenAPIV3Schema := none },
       { Name := "v0", Served := false, OpenAPIV3Schema := none }] }

/-- A document that unmarshals but is not a CRD. -/
def cfgMap : CustomResourceDefinition :=
  { Kind := "ConfigMap", Name := "cm", SpecGroup := "", SpecNamesKind := "",
    SpecVersions := [{ Name := "v1", Served := true, OpenAPIV3Schema := none }] }

/-- The unmarshaller for the scenario documents. -/
def parseScenario (doc : String) : Option CustomResourceDefinition :=
  if doc = "crd: one" then some crdOne
  else if doc = "crd: two" then some crdTwo
  else if doc = "crd: three" then some crdThree
  else if doc = "kind: ConfigMap" then some cfgMap
  else none

/-- The scenario file body: four documents with stray leading and
trailing separators. -/
def scenarioData : String :=
  "---\ncrd: one\n---\ncrd: two\n---\ncrd: three\n---\nkind: ConfigMap\n---"

/-- The per-document record count of the loader: zero for blank
documents, unparsable documents and non-CRDs, one per served version
otherwise. -/
def docRecordCount (parse : String → Option CustomResourceDefinition)
    (doc : String) : Nat :=
  if GoStr.goTrimSpace doc = "" then 0
  else
    match parse doc with
    | none => 0
    | some crd =>
      if crd.Kind ≠ "CustomResourceDefinition" then 0
      else (crd.SpecVersions.filter (fun v => v.Served)).length

end CrdSrc

/-! ## Claim theorems -/

/-- C7 (code evaluation at the failing input): both `Range.Contains` and
`IsPositionInRange` accept a position equal to the range's `End`, although
the source's own comment declares `End` exclusive and the claim states
that a position equal to `End` is not contained. -/
theorem c7_contains_accepts_end :
    ParserPos.Range.Contains
        { Start := { Line := 1, Column := 0 }, End := { Line := 1, Column := 5 } }
        { Line := 1, Column := 5 } = true ∧
    LspPos.IsPositionInRange { Line := 0, Character := 5 }
        { Start := { Line := 0, Character := 0 },
          End := { Line := 0, Character := 5 } } = true := by
  decide

/-- C6: the field-type grammar is syntax-only.  `string | minimum=5` is
accepted with zero errors even though a numeric modifier sits on a string
base type; quoted modifier values containing spaces survive tokenization;
a non-whitelisted modifier is rejected with `invalid-modifier`; and a
non-numeric value for `minimum` is rejected with `invalid-value`. -/
theorem c6_field_grammar_syntax_only :
    RgdValidator.validateFieldDefinition (fun _ => 1) "string | minimum=5"
        "spec.schema.spec.f" = [] ∧
    RgdValidator.parseModifiers "description='A field with spaces' required=true" =
      ["description='A field with spaces'", "required=true"] ∧
    (RgdValidator.validateModifiers (fun _ => 1) "widget=5" "p").map
        (fun e => e.Rule) = ["invalid-modifier"] ∧
    (RgdValidator.validateModifiers (fun _ => 1) "minimum=abc" "p").map
        (fun e => e.Rule) = ["invalid-value"] := by
  refine ⟨by decide, by decide, by decide, by decide⟩

/-- C9: CRD-backed schema validation never emits a diagnostic at all —
its OpenAPI and CEL checkers are stubs — so in particular no diagnostic
ever targets a field whose string value contains the templating marker. -/
theorem c9_crd_validation_emits_nothing
    (mode : CrdMgr.ValidationMode) (m : CrdMgr.CRDManagerState)
    (gvk : CrdMgr.GroupVersionKind) (document : GoMap) :
    CrdMgr.ValidateAgainstCRD mode m gvk document = [] := by
  unfold CrdMgr.ValidateAgainstCRD
  split
  · rfl
  · cases CrdMgr.GetCRDByGVK m gvk with
    | none => rfl
    | some schema =>
      simp [CrdMgr.validateOpenAPISchema, CrdMgr.validateCELRules]

/-- C1 (counterexample): a resource with both `template` and
`externalRef` present produces no error whatsoever from the resource
stage — there is no "mutually exclusive" error, contradicting the claim
that both-present yields one. -/
theorem c1_both_fields_no_error :
    RgdValidator.validateResources (fun _ => 1) [RgdValidator.resBoth] = [] := by
  decide

/-- C2 (counterexample): a document whose `kind` is missing yields zero
diagnostics — not exactly one structural diagnostic referencing `kind` —
because the validator skips documents that fail the RGD classification. -/
theorem c2_missing_kind_zero_diagnostics :
    RgdValidator.ValidateRGD (fun _ => 1) RgdValidator.docNoKind = [] := by
  decide

/-- C2 (amended): a document with no `kind` key fails the RGD
classification, so the validator skips it entirely and emits zero
diagnostics of any kind, and the manager classifies it as generic YAML
rather than RGD; there is no short-circuit emitting a single structural
diagnostic. -/
theorem c2_missing_kind_skips_validation :
    (∀ (lineOf : String → Int) (doc : GoMap),
      lookupGo doc "kind" = none →
        RgdValidator.ValidateRGD lineOf doc = []) ∧
    (∀ model : YamlDoc.DocumentModel,
      model.RootMap "kind" = none →
        DocumentPkg.GetDocumentType (some model) ≠ .rgd) := by
  constructor
  · intro lineOf doc h
    unfold RgdValidator.ValidateRGD RgdValidator.isRGDDocument
    rw [h]
    cases asStr (lookupGo doc "apiVersion") <;> simp [asStr]
  · intro model h
    cases h1 : model.RootMap "apiVersion" <;>
      simp [DocumentPkg.GetDocumentType, h1, h]

/-- C2 witness: the amended theorem applied to the concrete kind-less
document and model. -/
theorem c2_missing_kind_skips_validation_witness :
    RgdValidator.ValidateRGD (fun _ => 1) RgdValidator.docNoKind = [] ∧
    DocumentPkg.GetDocumentType (some YamlDoc.modelNoKind) ≠ .rgd :=
  ⟨c2_missing_kind_skips_validation.1 (fun _ => 1) RgdValidator.docNoKind rfl,
   c2_missing_kind_skips_validation.2 YamlDoc.modelNoKind rfl⟩

/-- C8: updating a uri that was never opened (or was closed) is a no-op:
the store reports the uri unknown, the update does not implicitly open
the document, and both the document store and the parsed-model store are
returned unchanged. -/
theorem c8_update_ignores_unknown_uri
    (parse : String → Option YamlDoc.DocumentModel)
    (m : DocumentPkg.Manager) (uri : String) (version : Int)
    (content : String)
    (h : m.documentStore.documents uri = none) :
    DocumentPkg.UpdateDocument parse m uri version content = m := by
  unfold DocumentPkg.UpdateDocument DocumentPkg.DocumentStore.Update
  rw [h]
  rfl

/-- C8 witness: the theorem applied to a store holding one other document
and an unopened uri. -/
theorem c8_update_ignores_unknown_uri_witness :
    DocumentPkg.UpdateDocument (fun _ => none)
      { documentStore :=
          { documents := fun u =>
              if u = "file:///a.yaml" then
                some { URI := "file:///a.yaml", Version := 1, Content := "a: 1" }
              else none },
        modelStore := fun _ => none }
      "file:///b.yaml" 2 "b: 2" =
      { documentStore :=
          { documents := fun u =>
              if u = "file:///a.yaml" then
                some { URI := "file:///a.yaml", Version := 1, Content := "a: 1" }
              else none },
        modelStore := fun _ => none } :=
  c8_update_ignores_unknown_uri (fun _ => none) _ "file:///b.yaml" 2 "b: 2"
    (by decide)

/-- Helper: the gvk index built by the `updateCache` loop maps an
identity to the last record carrying it, falling back to the initial
state. -/
theorem cacheInsert_foldl_gvk (schemas : List CrdMgr.CRDSchema)
    (st : CrdMgr.CRDManagerState) (g : CrdMgr.GroupVersionKind) :
    (schemas.foldl CrdMgr.cacheInsert st).gvkIndex g =
      match schemas.reverse.find? (fun s => s.GVK == g) with
      | some s => some s
      | none => st.gvkIndex g := by
  induction schemas generalizing st with
  | nil => rfl
  | cons s rest ih =>
    simp only [List.foldl_cons, ih, List.reverse_cons, List.find?_append]
    cases hfind : rest.reverse.find? (fun s2 => s2.GVK == g) with
    | some t => simp
    | none =>
      simp only [Option.orElse_none, Option.none_orElse, List.find?]
      by_cases hg : s.GVK = g
      · simp [CrdMgr.cacheInsert, hg]
      · have hb : (s.GVK == g) = false := by simpa using hg
        simp [CrdMgr.cacheInsert, hb, Ne.symm hg]

/-- C3: after a refresh cycle, identity lookup returns exactly the
last-processed record with that identity (hence at most one live schema
per identity, a hit iff some source produced the identity this cycle, and
a miss once a rebuild drops it); the rebuilt cache is independent of the
previous cache state. -/
theorem c3_cache_rebuild_characterization (old1 old2 : CrdMgr.CRDManagerState)
    (schemas : List CrdMgr.CRDSchema) (g : CrdMgr.GroupVersionKind) :
    CrdMgr.GetCRDByGVK (CrdMgr.updateCache old1 schemas) g =
      schemas.reverse.find? (fun s => s.GVK == g) ∧
    ((CrdMgr.GetCRDByGVK (CrdMgr.updateCache old1 schemas) g).isSome ↔
      ∃ s ∈ schemas, s.GVK = g) ∧
    CrdMgr.updateCache old1 schemas = CrdMgr.updateCache old2 schemas := by
  have h1 : CrdMgr.GetCRDByGVK (CrdMgr.updateCache old1 schemas) g =
      schemas.reverse.find? (fun s => s.GVK == g) := by
    unfold CrdMgr.GetCRDByGVK CrdMgr.updateCache
    rw [cacheInsert_foldl_gvk]
    cases schemas.reverse.find? (fun s => s.GVK == g) <;> rfl
  refine ⟨h1, ?_, rfl⟩
  rw [h1, List.find?_isSome]
  constructor
  · rintro ⟨x, hx, hp⟩
    exact ⟨x, List.mem_reverse.mp hx, by simpa using hp⟩
  · rintro ⟨x, hx, hp⟩
    exact ⟨x, List.mem_reverse.mpr hx, by simpa using hp⟩

/-- C4: the GitHub loader's record count is the sum, over the documents
obtained by splitting the fetched file on `---` separators, of the number
of served versions of each document that parses as a
`CustomResourceDefinition` (blank documents, unparsable documents,
non-CRDs and non-served versions contribute nothing); on the concrete
scenario file the split trims the stray leading/trailing separators and
three CRDs with 2, 1 and 1 served versions yield exactly 4 records. -/
theorem c4_github_records_per_served_version :
    (∀ (parse : String → Option CrdSrc.CustomResourceDefinition)
        (docs : List String),
      (CrdSrc.recordsOfDocs parse docs).length =
        (docs.map (CrdSrc.docRecordCount parse)).sum) ∧
    CrdSrc.splitYAMLDocuments CrdSrc.scenarioData =
      ["crd: one", "crd: two", "crd: three", "kind: ConfigMap"] ∧
    (CrdSrc.loadCRDsFromGitHub CrdSrc.parseScenario "crds.yaml"
        CrdSrc.scenarioData).toOption.map List.length = some 4 := by
  refine ⟨?_, by decide, by decide⟩
  intro parse docs
  induction docs with
  | nil => rfl
  | cons doc rest ih =>
    simp only [CrdSrc.recordsOfDocs, List.length_append, ih, List.map_cons,
      List.sum_cons, CrdSrc.docRecordCount]
    congr 1
    by_cases h1 : GoStr.goTrimSpace doc = ""
    · simp [h1]
    · simp only [h1, if_false]
      cases h2 : parse doc with
      | none => simp
      | some crd =>
        by_cases h3 : crd.Kind = "CustomResourceDefinition"
        · simp [h3, CrdSrc.recordsOfCRD]
        · simp [h3]

open RgdValidator

/-- Helper: id errors never carry the missing-resource-definition rule. -/
theorem resourceIdErrors_filter_missing (lineOf : String → Int)
    (p id : String) (seen : List String) :
    (resourceIdErrors lineOf p id seen).1.filter
      (fun e => e.Rule == "missing-resource-definition") = [] := by
  unfold resourceIdErrors
  split_ifs <;> simp_all

/-- Helper: one duplicate-id error exactly when the id is non-empty and
already seen. -/
theorem resourceIdErrors_filter_dup_length (lineOf : String → Int)
    (p id : String) (seen : List String) :
    ((resourceIdErrors lineOf p id seen).1.filter
      (fun e => e.Rule == "duplicate-id")).length =
      if id = "" then 0 else if seen.contains id then 1 else 0 := by
  unfold resourceIdErrors
  split_ifs <;> simp_all

/-- Helper: the seen set grows only at a first occurrence of a non-empty
id. -/
theorem resourceIdErrors_seen (lineOf : String → Int)
    (p id : String) (seen : List String) :
    (resourceIdErrors lineOf p id seen).2 =
      if id = "" then seen
      else if seen.contains id then seen else id :: seen := by
  unfold resourceIdErrors
  split_ifs <;> simp_all

/-- Helper: id errors stay within the resource-stage rule set. -/
theorem resourceIdErrors_rules (lineOf : String → Int)
    (p id : String) (seen : List String) :
    (resourceIdErrors lineOf p id seen).1.all
      (fun e => resourceStageRules.contains e.Rule) = true := by
  unfold resourceIdErrors
  split_ifs <;> simp_all [resourceStageRules]

/-- Helper: one "must have either" error exactly when the resource has
neither template nor externalRef. -/
theorem resourceShapeErrors_filter_missing (lineOf : String → Int)
    (p : String) (r : RGDResource) :
    ((resourceShapeErrors lineOf p r).filter
      (fun e => e.Rule == "missing-resource-definition")).length =
      if r.Template.isNone && r.ExternalRef.isNone then 1 else 0 := by
  unfold resourceShapeErrors validateResourceTemplate validateExternalRef
  cases htpl : r.Template with
  | some tpl =>
    cases href : r.ExternalRef with
    | none => cases hk : validateKubernetesObjectStructure tpl <;> simp_all
    | some er =>
      cases hk : validateKubernetesObjectStructure tpl <;> dsimp only <;>
        split_ifs <;> simp_all
  | none =>
    cases href : r.ExternalRef with
    | none => simp_all
    | some er => dsimp only; split_ifs <;> simp_all

/-- Helper: shape errors never carry the duplicate-id rule. -/
theorem resourceShapeErrors_filter_dup (lineOf : String → Int)
    (p : String) (r : RGDResource) :
    (resourceShapeErrors lineOf p r).filter
      (fun e => e.Rule == "duplicate-id") = [] := by
  unfold resourceShapeErrors validateResourceTemplate validateExternalRef
  cases htpl : r.Template with
  | some tpl =>
    cases href : r.ExternalRef with
    | none => cases hk : validateKubernetesObjectStructure tpl <;> simp_all
    | some er =>
      cases hk : validateKubernetesObjectStructure tpl <;> dsimp only <;>
        split_ifs <;> simp_all
  | none =>
    cases href : r.ExternalRef with
    | none => simp_all
    | some er => dsimp only; split_ifs <;> simp_all

/-- Helper: shape errors stay within the resource-stage rule set. -/
theorem resourceShapeErrors_rules (lineOf : String → Int)
    (p : String) (r : RGDResource) :
    (resourceShapeErrors lineOf p r).all
      (fun e => resourceStageRules.contains e.Rule) = true := by
  unfold resourceShapeErrors validateResourceTemplate validateExternalRef
  cases htpl : r.Template with
  | some tpl =>
    cases href : r.ExternalRef with
    | none =>
      cases hk : validateKubernetesObjectStructure tpl <;>
        simp_all [resourceStageRules]
    | some er =>
      cases hk : validateKubernetesObjectStructure tpl <;> dsimp only <;>
        split_ifs <;> simp_all [resourceStageRules]
  | none =>
    cases href : r.ExternalRef with
    | none => simp_all [resourceStageRules]
    | some er => dsimp only; split_ifs <;> simp_all [resourceStageRules]

/-- Helper: the loop's missing-definition error count over a resource
list. -/
theorem resourcesLoop_filter_missing (lineOf : String → Int)
    (rs : List RGDResource) :
    ∀ (i : Nat) (seen : List String),
    ((validateResourcesLoop lineOf i seen rs).filter
      (fun e => e.Rule == "missing-resource-definition")).length =
      (rs.filter (fun r => r.Template.isNone && r.ExternalRef.isNone)).length := by
  induction rs with
  | nil => intro i seen; rfl
  | cons r rest ih =>
    intro i seen
    simp only [validateResourcesLoop, List.filter_append, List.length_append,
      resourceIdErrors_filter_missing, resourceShapeErrors_filter_missing, ih,
      List.filter_cons, List.length_nil]
    by_cases hc : (r.Template.isNone && r.ExternalRef.isNone) = true <;>
      simp [hc, Nat.add_comm]

/-- Helper: the loop's duplicate-id error count matches the repeat
count. -/
theorem resourcesLoop_filter_dup (lineOf : String → Int)
    (rs : List RGDResource) :
    ∀ (i : Nat) (seen : List String),
    ((validateResourcesLoop lineOf i seen rs).filter
      (fun e => e.Rule == "duplicate-id")).length =
      specRepeatCount seen (rs.map (fun r => r.ID)) := by
  induction rs with
  | nil => intro i seen; rfl
  | cons r rest ih =>
    intro i seen
    simp only [validateResourcesLoop, List.filter_append, List.length_append,
      resourceIdErrors_filter_dup_length, resourceShapeErrors_filter_dup,
      resourceIdErrors_seen, ih, List.map_cons, specRepeatCount,
      List.length_nil]
    by_cases h1 : r.ID = ""
    · simp [h1]
    · by_cases h2 : seen.contains r.ID = true
      · have hm : r.ID ∈ seen := by simpa using h2
        simp [h1, hm, Nat.add_comm]
      · have hm : r.ID ∉ seen := by simpa using h2
        simp [h1, hm]

/-- Helper: every loop error carries a resource-stage rule. -/
theorem resourcesLoop_rules (lineOf : String → Int) (rs : List RGDResource) :
    ∀ (i : Nat) (seen : List String),
    (validateResourcesLoop lineOf i seen rs).all
      (fun e => resourceStageRules.contains e.Rule) = true := by
  induction rs with
  | nil => intro i seen; rfl
  | cons r rest ih =>
    intro i seen
    simp only [validateResourcesLoop, List.all_append, Bool.and_eq_true]
    exact ⟨⟨resourceIdErrors_rules lineOf _ r.ID seen,
      resourceShapeErrors_rules lineOf _ r⟩, ih _ _⟩

/-- C1 (amended): the resource-shape stage enforces only one direction of
the claim: the number of "must have either" errors equals the number of
resources with neither `template` nor `externalRef`, so a resource with
both present yields no such error and no mutual-exclusivity error exists
(every emitted error carries one of the six resource-stage rules, none of
them an exclusivity rule). -/
theorem c1_resource_shape_one_sided (lineOf : String → Int)
    (resources : List RGDResource) :
    ((validateResources lineOf resources).filter
      (fun e => e.Rule == "missing-resource-definition")).length =
      (resources.filter
        (fun r => r.Template.isNone && r.ExternalRef.isNone)).length ∧
    (validateResources lineOf resources).all
      (fun e => resourceStageRules.contains e.Rule) = true := by
  cases resources with
  | nil => exact ⟨rfl, rfl⟩
  | cons r rest =>
    unfold validateResources
    simp only [List.length_cons, Nat.succ_ne_zero, if_neg]
    exact ⟨resourcesLoop_filter_missing lineOf (r :: rest) 0 [],
      resourcesLoop_rules lineOf (r :: rest) 0 []⟩

/-- C5: duplicate-id errors are exactly the repeats: their count equals
the spec-side repeat count (first occurrence of each non-empty id
recorded as seen, only repeats flagged), and for the concrete pair of
resources both named `foo` exactly one duplicate-id error is emitted,
attached to the second occurrence `spec.resources[1].id`. -/
theorem c5_duplicate_id_flagging :
    (∀ (lineOf : String → Int) (resources : List RGDResource),
      ((validateResources lineOf resources).filter
        (fun e => e.Rule == "duplicate-id")).length =
        specRepeatCount [] (resources.map (fun r => r.ID))) ∧
    (validateResources (fun _ => 1) [resFoo, resFoo]).filter
      (fun e => e.Rule == "duplicate-id") =
      [{ Message := "duplicate resource id 'foo'", Line := 1,
         Severity := .error, Rule := "duplicate-id",
         Path := "spec.resources[1].id" }] := by
  refine ⟨?_, by decide⟩
  intro lineOf resources
  cases resources with
  | nil => rfl
  | cons r rest =>
    unfold validateResources
    simp only [List.length_cons, Nat.succ_ne_zero, if_neg]
    exact resourcesLoop_filter_dup lineOf (r :: rest) 0 []

/-- Helper: the per-document root-map population loop ends with the last
binding of each key (later pairs override earlier ones). -/
theorem rootMapFoldl (pairs : List (String × YamlDoc.YamlAst))
    (rm : String → Option YamlDoc.Node) (k : String) :
    (pairs.foldl
      (fun rm2 kv =>
        fun k2 => if k2 = kv.1 then some (YamlDoc.processNode kv.2) else rm2 k2)
      rm) k =
      match YamlDoc.lastBinding pairs k with
      | some v => some (YamlDoc.processNode v)
      | none => rm k := by
  induction pairs generalizing rm with
  | nil => rfl
  | cons kv rest ih =>
    simp only [List.foldl_cons, ih, YamlDoc.lastBinding, List.reverse_cons,
      List.find?_append]
    cases hfind : rest.reverse.find? (fun kv2 => kv2.1 == k) with
    | some t => simp [YamlDoc.lastBinding, hfind]
    | none =>
      simp only [YamlDoc.lastBinding, hfind, Option.none_orElse, List.find?]
      by_cases hk : kv.1 = k
      · simp [hk]
      · have hb : (kv.1 == k) = false := by simpa using hk
        simp [hb, Ne.symm hk]

/-- Helper: after folding the document loop, the root node is the tree of
the last non-nil body, if any. -/
theorem parseFoldl_rootNode (docs : List (Option YamlDoc.YamlAst)) :
    ∀ model, (docs.foldl YamlDoc.parseStep model).RootNode =
      match YamlDoc.lastBody docs with
      | some b => some (YamlDoc.processNode b)
      | none => model.RootNode := by
  induction docs with
  | nil => intro model; rfl
  | cons d rest ih =>
    intro model
    cases d with
    | none => simp only [List.foldl_cons, ih, YamlDoc.lastBody, YamlDoc.parseStep]
    | some b =>
      simp only [List.foldl_cons, ih, YamlDoc.lastBody]
      cases YamlDoc.lastBody rest with
      | some later => rfl
      | none => rfl

/-- Helper: after folding the document loop, the root map holds, per key,
the processed value of the latest binding across all documents. -/
theorem parseFoldl_rootMap (docs : List (Option YamlDoc.YamlAst)) (k : String) :
    ∀ model, (docs.foldl YamlDoc.parseStep model).RootMap k =
      match YamlDoc.lastTopValue docs k with
      | some v => some (YamlDoc.processNode v)
      | none => model.RootMap k := by
  induction docs with
  | nil => intro model; rfl
  | cons d rest ih =>
    intro model
    simp only [List.foldl_cons, ih, YamlDoc.lastTopValue]
    cases YamlDoc.lastTopValue rest k with
    | some v => rfl
    | none =>
      cases d with
      | none => rfl
      | some b =>
        show (YamlDoc.parseStep model (some b)).RootMap k = _
        unfold YamlDoc.parseStep
        dsimp only
        rw [rootMapFoldl]

/-- C10: parsing multi-document text keeps only the last document's tree
in `RootNode`, while `RootMap` accumulates top-level keys across all
documents with later documents overriding earlier ones per key (earlier
documents' trees survive only through those map entries). -/
theorem c10_parse_multidoc_accumulation (docs : List (Option YamlDoc.YamlAst))
    (k : String) :
    (YamlDoc.Parse docs).RootNode =
      (YamlDoc.lastBody docs).map YamlDoc.processNode ∧
    (YamlDoc.Parse docs).RootMap k =
      (YamlDoc.lastTopValue docs k).map YamlDoc.processNode := by
  constructor
  · rw [YamlDoc.Parse, parseFoldl_rootNode]
    cases YamlDoc.lastBody docs <;> rfl
  · rw [YamlDoc.Parse, parseFoldl_rootMap]
    cases YamlDoc.lastTopValue docs k <;> rfl
